import Mathlib

/-!
Verification development for the raiden chat-mirroring engine.

Shallow embedding of the change-detection, deduplication and
reply-orchestration core:

* `dedupNewMessages`    — the new-message computation of
  `InstagramBot._listen_loop` (src/worker/platforms/instagram.py, 605-623);
* `preseedSentIds`      — the pre-population of `sent_message_ids` done by
  the HTTP history endpoint (src/backend/main.py, 506-513);
* `changedChats`        — the inbox diff of `_listen_loop`
  (src/worker/platforms/instagram.py, 519-528);
* `check_rate_limit`    — src/backend/rate_limiter.py, 56-122;
* `pyBroadcast`         — `ConnectionManager.broadcast`
  (src/backend/websockets.py, 30-40), embedded with Python's
  iterate-while-mutating list semantics;
* `getChatHistoryComplete` / `listenAfterFetch` — the version guard of
  `InstagramBot.get_chat_history` (721-963) and the listen-loop
  continuation that consumes its result;
* `handleReplyGeneration` — the event trace of
  `InstagramBot._handle_reply_generation` (136-229).
-/

namespace Raiden

/-- A scraped message record as produced by `get_chat_history`: the fields
the dedup/orchestration paths consume (`message_id`, `text`, `is_me`). -/
structure Msg where
  message_id : Option String
  text : String
  is_me : Bool
  deriving DecidableEq, Repr

/-! ## Dedup Tracker (`_listen_loop`, instagram.py 605-623)

For each fetched record: extract `message_id`; if present and not in
`sent_message_ids[chat_id]`, append the record to `new_messages` and add the
id to the set; if present but already tracked, skip; if absent, log and drop.
-/

/-- The per-chat new-message computation of `_listen_loop` (lines 610-622):
returns the `new_messages` list and the updated `sent_message_ids[chat_id]`
set. -/
def dedupNewMessages : List Msg → Finset String → List Msg × Finset String
  | [], tracked => ([], tracked)
  | msg :: rest, tracked =>
    match msg.message_id with
    | some mid =>
      if mid ∈ tracked then
        dedupNewMessages rest tracked
      else
        (msg :: (dedupNewMessages rest (insert mid tracked)).1,
         (dedupNewMessages rest (insert mid tracked)).2)
    | none => dedupNewMessages rest tracked

/-- The message ids present in a fetched history, in order. -/
def presentIdsList (history : List Msg) : List String :=
  history.filterMap Msg.message_id

/-- Pre-seeding done by the HTTP history endpoint
(`get_chat_history_endpoint`, main.py 508-512): every present `message_id`
of the returned history is added to `sent_message_ids[chat_id]`. -/
def preseedSentIds (tracker : Finset String) : List Msg → Finset String
  | [] => tracker
  | msg :: rest =>
    match msg.message_id with
    | some mid => preseedSentIds (insert mid tracker) rest
    | none => preseedSentIds tracker rest

/-! ## Python string primitives

Character-level embeddings of the three `str` methods the engine uses
(`split('\n')`, `strip()`, `lower()`), written by structural recursion over
the character list so every theorem below can be evaluated on concrete
inputs.
-/

/-- Embedding of `s.split('\n')` on the character list: split at every newline, keeping
empty segments (Python semantics for a one-character separator). -/
def splitNlChars : List Char → List (List Char)
  | [] => [[]]
  | c :: rest =>
    let r := splitNlChars rest
    if c = '\n' then [] :: r
    else
      match r with
      | [] => [[c]]
      | h :: t => (c :: h) :: t

/-- Embedding of `reply.split('\n')`. -/
def pySplitNewline (s : String) : List String :=
  (splitNlChars s.data).map String.mk

/-- Embedding of `line.strip()`: drop leading and trailing whitespace. -/
def pyStrip (s : String) : String :=
  String.mk (((s.data.dropWhile Char.isWhitespace).reverse.dropWhile
    Char.isWhitespace).reverse)

/-- Embedding of `prev.lower()` (ASCII case folding, which is all the marker comparison
needs). -/
def pyLower (s : String) : String :=
  String.mk (s.data.map Char.toLower)

/-! ## Diff Engine (`_listen_loop`, instagram.py 519-528)

Snapshots are Python dicts `chat_id -> preview`; we embed them as
association lists (dict iteration order) with first-match lookup.
-/

/-- Dict lookup `old_snapshot[cid]` on an association-list snapshot. -/
def lookupPrev : List (String × String) → String → Option String
  | [], _ => none
  | (k, v) :: rest, cid => if k = cid then some v else lookupPrev rest cid

/-- The ephemeral preview marker skipped by the diff (line 528). -/
def typingMarker : String := "typing..."

/-- The changed-chat computation (lines 526-528):
`[cid for cid, prev in new_snapshot.items() if cid in old_snapshot and
old_snapshot[cid] != prev and prev.lower() != "typing..."]`. -/
def changedChats (oldSnap newSnap : List (String × String)) : List String :=
  (newSnap.filter
    (fun p =>
      match lookupPrev oldSnap p.1 with
      | some oldPrev => decide (oldPrev ≠ p.2) && decide (pyLower p.2 ≠ typingMarker)
      | none => false)).map Prod.fst

/-- A snapshot equal to `snap` except that chat `c`'s preview is `m`. -/
def setPreview (snap : List (String × String)) (c m : String) : List (String × String) :=
  snap.map (fun kv => if kv.1 = c then (kv.1, m) else kv)

/-! ## Rate Limiter (src/backend/rate_limiter.py)

Times are in seconds (`datetime` arithmetic is exact; the tier durations are
whole hours, `timedelta(hours=h)` = `h * 3600` seconds).
-/

/-- Per-tier configuration (rate_limiter.py `RATE_LIMITS`). -/
structure TierLimits where
  window_hours : Nat
  max_requests : Nat
  cooldown_hours : Nat
  deriving DecidableEq, Repr

/-- Embedding of `RATE_LIMITS` with `get_limits_for_tier`'s fallback to `"free"` for an
unknown tier (rate_limiter.py 17-38). -/
def get_limits_for_tier (tier : String) : TierLimits :=
  if tier = "free" then ⟨4, 26, 2⟩
  else if tier = "paid" then ⟨6, 80, 1⟩
  else ⟨4, 26, 2⟩

/-- Duration of `timedelta(hours=h)` in seconds. -/
def hoursToSecs (h : Nat) : Nat := h * 3600

/-- The single `RateLimitState` row: `request_count`, `window_start`,
`cooldown_until` (nullable). -/
structure RLState where
  request_count : Nat
  window_start : Nat
  cooldown_until : Option Nat
  deriving DecidableEq, Repr

/-- Embedding of `check_rate_limit(tier)` (rate_limiter.py 56-122).  Input: the stored
state row (`none` = row absent) and `now`; output: `(is_allowed, reset_time,
stored_state_afterwards)`.  The four checks in source order: in-cooldown
blocked; cooldown-expired reset+allow; window-expired reset+allow; at-limit
enter cooldown and block; otherwise allow.  (Checks 1 and 2 together are
exhaustive for a non-null `cooldown_until`, so check 3 only ever runs with
`cooldown_until = None`.) -/
def check_rate_limit (tier : String) (st : Option RLState) (now : Nat) :
    Bool × Option Nat × RLState :=
  let limits := get_limits_for_tier tier
  match st with
  | none => (true, none, ⟨0, now, none⟩)
  | some s =>
    match s.cooldown_until with
    | some cu =>
      if now < cu then
        (false, some cu, s)
      else
        (true, none, ⟨0, now, none⟩)
    | none =>
      if s.window_start + hoursToSecs limits.window_hours ≤ now then
        (true, none, ⟨0, now, none⟩)
      else if limits.max_requests ≤ s.request_count then
        let cooldown_end := now + hoursToSecs limits.cooldown_hours
        (false, some cooldown_end, ⟨s.request_count, s.window_start, some cooldown_end⟩)
      else
        (true, none, s)

/-- Embedding of `increment_request_count(tier)` (rate_limiter.py 125-153). -/
def increment_request_count (st : Option RLState) (now : Nat) : RLState :=
  match st with
  | none => ⟨1, now, none⟩
  | some s => ⟨s.request_count + 1, s.window_start, s.cooldown_until⟩

/-! ## Broadcast Fanout (`ConnectionManager.broadcast`, websockets.py 30-40)

The source iterates `for connection in self.rooms[room_id]` and, on a send
failure, calls `disconnect`, which does `self.rooms[room_id].remove(connection)`
— removing from the very list being iterated.  A Python list iterator holds an
index: after yielding position `i`, removing position `i` shifts the tail left
and the iterator's next read is the shifted position `i + 1`, i.e. the element
that followed the removed one is skipped.  We embed exactly this index
semantics; subscribers are distinct, so `remove` erases position `i`.
-/

/-- One Python-iterator step of the broadcast loop over the room list:
`room` is the current list, `i` the iterator index, `delivered` the
subscribers whose `send_json` succeeded so far.  Returns
`(delivered, final room list)`.  The loop runs for at most
`room.length - i` iterations (the index grows by one per iteration and the
list never grows), so the structural `fuel` counter, started at the initial
list length, never reaches zero before the iterator is exhausted. -/
def pyBroadcastGo (fails : Nat → Bool) :
    Nat → List Nat → Nat → List Nat → List Nat × List Nat
  | 0, room, _, delivered => (delivered, room)
  | fuel + 1, room, i, delivered =>
    if h : i < room.length then
      let c := room.get ⟨i, h⟩
      if fails c then
        pyBroadcastGo fails fuel (room.eraseIdx i) (i + 1) delivered
      else
        pyBroadcastGo fails fuel room (i + 1) (delivered ++ [c])
    else
      (delivered, room)

/-- Embedding of `ConnectionManager.broadcast(room_id, message)` restricted to one room:
delivery loop starting at iterator index 0. -/
def pyBroadcast (fails : Nat → Bool) (room : List Nat) : List Nat × List Nat :=
  pyBroadcastGo fails room.length room 0 []

/-! ## History Fetch Guard (`get_chat_history`, instagram.py 718-966)

At call time the bot does `self.history_version += 1; my_version =
self.history_version`.  At completion (lines 933-961) it compares
`my_version` with the live `self.history_version`: on mismatch it only skips
the db2 persistence ("Discarding stale results"); line 963 `return messages`
runs unconditionally, so the scraped list is returned to the caller either
way.  We embed completion as a function of the captured version, the live
counter value at completion, the optional `chat_id` argument and the scraped
messages.
-/

/-- The db2 persistence payload filter (instagram.py 939-949: records with a
`message_id` and a non-empty `text`). -/
def db2Messages (msgs : List Msg) : List Msg :=
  msgs.filter (fun m => m.message_id.isSome && m.text != "")

/-- What `get_chat_history` hands back and whether it queued db2
persistence. -/
structure FetchOutcome where
  returned : List Msg
  db2Persisted : Bool
  deriving DecidableEq, Repr

/-- Completion of `get_chat_history` (instagram.py 933-963): db2 persistence
happens iff messages are non-empty, a `chat_id` was given, the captured
version still equals the live counter, and the db2 payload is non-empty;
the scraped list is returned regardless. -/
def getChatHistoryComplete (myVersion liveVersion : Nat) (chatId : Option String)
    (messages : List Msg) : FetchOutcome :=
  if messages ≠ [] ∧ chatId.isSome then
    if myVersion ≠ liveVersion then
      ⟨messages, false⟩
    else
      ⟨messages, decide (db2Messages messages ≠ [])⟩
  else
    ⟨messages, false⟩

/-- The listen-loop continuation after a history fetch for one chat
(instagram.py 603-637): empty history is skipped; otherwise the dedup step
runs against `sent_message_ids[chat_id]` and, when a viewer is connected,
every new message is broadcast to the chat room.  Returns the updated
tracked-id set, the `new_messages` list, and the messages broadcast to
viewers. -/
def listenAfterFetch (hasViewer : Bool) (history : List Msg)
    (tracker : Finset String) : Finset String × List Msg × List Msg :=
  if history = [] then
    (tracker, [], [])
  else
    ((dedupNewMessages history tracker).2,
     (dedupNewMessages history tracker).1,
     if hasViewer then (dedupNewMessages history tracker).1 else [])

/-! ## Reply Orchestrator (`_handle_reply_generation`, instagram.py 136-229)

We embed the coroutine as the trace of observable events it performs, as a
function of: the rate-limit check outcome, the generation result (`none` =
`generate_smart_reply` returned `None` or raised), the chat's `auto_reply`
flag, and the outcome of each send (`send_message` returns a boolean that
line 197 ignores).  `reply_parts[0]` in the "Sending:" broadcast (line 193)
raises `IndexError` when the split yields no parts; the generic `except`
(224-229) catches it and broadcasts a clear — embedded as the
`indexError` event followed by `clearLog`.
-/

/-- Observable events of one `_handle_reply_generation` run. -/
inductive REvent where
  /-- chat-room `rate_limited` log broadcast (lines 155-159) -/
  | rateLimitedChat
  /-- sidebar `rate_limited` broadcast (lines 160-164) -/
  | rateLimitedSidebar
  /-- chat-room `generating` log broadcast (lines 167-171) -/
  | generatingLog
  /-- the external `generate_smart_reply` call (line 174) -/
  | genCall
  /-- the increment call `check_rate_limit_via_edge` (line 178) -/
  | rateIncrement
  /-- chat-room `sending` log broadcast, carrying `reply_parts[0]` (190-194) -/
  | sendingLog (preview : String)
  /-- the call `send_message(chat_id, part)` and its boolean result (line 197) -/
  | sendMsg (part : String) (ok : Bool)
  /-- the pause `asyncio.sleep(0.8)` between consecutive sends (199) -/
  | pauseShort
  /-- the pause `asyncio.sleep(1)` after the last send (201) -/
  | pauseLong
  /-- chat-room `clear` log broadcast (202-205, 208-211, 219-222, 226-229) -/
  | clearLog
  /-- sidebar `suggestion` broadcast (212-217) -/
  | suggestion (text : String)
  /-- the `IndexError` from the first-candidate access, caught by the generic handler -/
  | indexError
  deriving DecidableEq, Repr

/-- Embedding of the candidate split at line 187:
`[line.strip() for line in reply.split('\n') if line.strip()]`. -/
def replyParts (reply : String) : List String :=
  ((pySplitNewline reply).map pyStrip).filter (fun l => l != "")

/-- The send loop (lines 196-199): send every part in order, sleeping 0.8 s
after each part except the last; the boolean result of `send_message` is
recorded but never consulted. -/
def sendLoop (send : String → Bool) : List String → List REvent
  | [] => []
  | [p] => [.sendMsg p (send p)]
  | p :: q :: rest => .sendMsg p (send p) :: .pauseShort :: sendLoop send (q :: rest)

/-- The full event trace of `_handle_reply_generation`:
`allowed` is the rate-limit check result, `reply` the generation result
(`none` for `None`/exception; the empty string is falsy at line 177),
`autoSend` the chat's `auto_reply` setting, `send` the per-part outcome of
`send_message`. -/
def handleReplyGeneration (allowed : Bool) (reply : Option String)
    (autoSend : Bool) (send : String → Bool) : List REvent :=
  if !allowed then
    [.rateLimitedChat, .rateLimitedSidebar]
  else
    .generatingLog :: .genCall ::
      (match reply with
       | some r =>
         if r = "" then
           [.clearLog]
         else
           .rateIncrement ::
             (if autoSend then
                match replyParts r with
                | [] => [.indexError, .clearLog]
                | p :: rest =>
                  .sendingLog p :: (sendLoop send (p :: rest) ++ [.pauseLong, .clearLog])
              else
                [.clearLog, .suggestion r])
       | none => [.clearLog])

/-- Forget send outcomes, for stating that they never influence control
flow. -/
def stripOk : REvent → REvent
  | .sendMsg p _ => .sendMsg p true
  | e => e

/-! ## Auto-enrollment (`_apply_global_settings_to_chat`, instagram.py
105-134, and the listen-loop fragment 582-592) -/

/-- The persisted `ChatSettings` columns the orchestrator reads/writes. -/
structure ChatSettingsRec where
  enabled : Bool
  auto_reply : Bool
  custom_rules : String
  deriving DecidableEq, Repr

/-- Embedding of `_apply_global_settings_to_chat(chat_id, global_rules)` (105-134):
create-or-update the chat's settings row with `enabled = True`,
`auto_reply = True`, `custom_rules = global_rules` (all three columns are
written either way), and add the chat to `tracked_cache`. -/
def applyGlobalSettingsToChat (db : String → Option ChatSettingsRec)
    (cache : Finset String) (chatId rules : String) :
    (String → Option ChatSettingsRec) × Finset String :=
  (fun c => if c = chatId then some ⟨true, true, rules⟩ else db c,
   insert chatId cache)

/-- The `auto_send` read at lines 180-183:
`settings.auto_reply if settings else False`. -/
def autoSendOf (db : String → Option ChatSettingsRec) (chatId : String) : Bool :=
  match db chatId with
  | some s => s.auto_reply
  | none => false

/-- The per-changed-chat enrollment fragment (listen loop 582-592):
`is_tracked = chat_id in tracked_cache`; if the global policy is enabled and
the chat is untracked, apply the global settings and treat it as tracked. -/
def enrollIfGlobal (globalEnabled : Bool) (db : String → Option ChatSettingsRec)
    (cache : Finset String) (chatId rules : String) :
    (String → Option ChatSettingsRec) × Finset String × Bool :=
  if globalEnabled && !(decide (chatId ∈ cache)) then
    ((applyGlobalSettingsToChat db cache chatId rules).1,
     (applyGlobalSettingsToChat db cache chatId rules).2, true)
  else
    (db, cache, decide (chatId ∈ cache))

/-! ## Supporting lemmas -/

theorem mem_dedup_snd (h : List Msg) (t : Finset String) (mid : String) :
    mid ∈ (dedupNewMessages h t).2 ↔ mid ∈ t ∨ mid ∈ presentIdsList h := by
  induction h generalizing t with
  | nil => simp [dedupNewMessages, presentIdsList]
  | cons m rest ih =>
    cases hm : m.message_id with
    | none =>
      rw [show presentIdsList (m :: rest) = presentIdsList rest from by
        simp [presentIdsList, List.filterMap_cons, hm]]
      simpa only [dedupNewMessages, hm] using ih t
    | some mid2 =>
      by_cases hmem : mid2 ∈ t
      · simp only [dedupNewMessages, hm, if_pos hmem, ih, presentIdsList,
          List.filterMap_cons, List.mem_cons]
        constructor
        · rintro (h1 | h2)
          · exact Or.inl h1
          · exact Or.inr (Or.inr h2)
        · rintro (h1 | rfl | h2)
          · exact Or.inl h1
          · exact Or.inl hmem
          · exact Or.inr h2
      · simp only [dedupNewMessages, hm, if_neg hmem, ih, presentIdsList,
          List.filterMap_cons, List.mem_cons, Finset.mem_insert]
        tauto

theorem dedup_fst_eq_nil (h : List Msg) (t : Finset String) :
    (∀ mid ∈ presentIdsList h, mid ∈ t) → (dedupNewMessages h t).1 = [] := by
  induction h with
  | nil => intro _; simp [dedupNewMessages]
  | cons m rest ih =>
    intro hall
    cases hm : m.message_id with
    | none =>
      have hps : presentIdsList (m :: rest) = presentIdsList rest := by
        simp [presentIdsList, List.filterMap_cons, hm]
      simp only [dedupNewMessages, hm]
      exact ih fun mid hmid => hall mid (hps ▸ hmid)
    | some mid2 =>
      have hps : presentIdsList (m :: rest) = mid2 :: presentIdsList rest := by
        simp [presentIdsList, List.filterMap_cons, hm]
      have h2 : mid2 ∈ t := hall mid2 (by rw [hps]; exact List.mem_cons_self _ _)
      simp only [dedupNewMessages, hm, if_pos h2]
      exact ih fun mid hmid =>
        hall mid (by rw [hps]; exact List.mem_cons_of_mem _ hmid)

theorem dedup_fst_filter (h : List Msg) (t : Finset String)
    (hnd : (presentIdsList h).Nodup) :
    (dedupNewMessages h t).1 =
      h.filter (fun m =>
        match m.message_id with
        | some mid => decide (mid ∉ t)
        | none => false) := by
  induction h generalizing t with
  | nil => simp [dedupNewMessages]
  | cons m rest ih =>
    cases hm : m.message_id with
    | none =>
      have hnd2 : (presentIdsList rest).Nodup := by
        simpa [presentIdsList, List.filterMap_cons, hm] using hnd
      simp only [dedupNewMessages, hm, List.filter_cons]
      rw [ih t hnd2]
      simp [hm]
    | some mid2 =>
      have hsplit : presentIdsList (m :: rest) = mid2 :: presentIdsList rest := by
        simp [presentIdsList, List.filterMap_cons, hm]
      rw [hsplit] at hnd
      have hnotmem : mid2 ∉ presentIdsList rest := (List.nodup_cons.1 hnd).1
      have hnd2 : (presentIdsList rest).Nodup := (List.nodup_cons.1 hnd).2
      by_cases hmem : mid2 ∈ t
      · simp only [dedupNewMessages, hm, if_pos hmem, List.filter_cons]
        rw [ih t hnd2]
        simp [hm, hmem]
      · simp only [dedupNewMessages, hm, if_neg hmem, List.filter_cons]
        rw [ih (insert mid2 t) hnd2]
        have hcong :
            rest.filter (fun x =>
              match x.message_id with
              | some mid => decide (mid ∉ insert mid2 t)
              | none => false)
              = rest.filter (fun x =>
              match x.message_id with
              | some mid => decide (mid ∉ t)
              | none => false) := by
          apply List.filter_congr
          intro x hx
          cases hx2 : x.message_id with
          | none => simp
          | some mid3 =>
            have hmem3 : mid3 ∈ presentIdsList rest := by
              simp only [presentIdsList, List.mem_filterMap]
              exact ⟨x, hx, hx2⟩
            have hne : mid3 ≠ mid2 := fun he => hnotmem (he ▸ hmem3)
            simp [Finset.mem_insert, hne]
        rw [hcong]
        simp [hm, hmem]

theorem mem_preseed (history : List Msg) (tracker : Finset String) (mid : String) :
    mid ∈ preseedSentIds tracker history ↔
      mid ∈ tracker ∨ mid ∈ presentIdsList history := by
  induction history generalizing tracker with
  | nil => simp [preseedSentIds, presentIdsList]
  | cons m rest ih =>
    cases hm : m.message_id with
    | none =>
      simp only [preseedSentIds, hm, ih, presentIdsList, List.filterMap_cons]
    | some mid2 =>
      simp only [preseedSentIds, hm, ih, presentIdsList, List.filterMap_cons,
        Finset.mem_insert, List.mem_cons]
      tauto

theorem lookupPrev_eq_of_mem (snap : List (String × String))
    (hnd : (snap.map Prod.fst).Nodup) (kv : String × String) (hmem : kv ∈ snap) :
    lookupPrev snap kv.1 = some kv.2 := by
  induction snap with
  | nil => cases hmem
  | cons hd rest ih =>
    rcases List.mem_cons.1 hmem with rfl | hmem2
    · simp [lookupPrev]
    · have hne : hd.1 ≠ kv.1 := by
        intro he
        have : kv.1 ∈ rest.map Prod.fst := List.mem_map.2 ⟨kv, hmem2, rfl⟩
        have := (List.nodup_cons.1 hnd).1
        exact this (he ▸ ‹kv.1 ∈ rest.map Prod.fst›)
      simp only [lookupPrev, if_neg hne]
      exact ih (List.nodup_cons.1 hnd).2 hmem2

theorem sendLoop_mem (send : String → Bool) :
    ∀ (parts : List String) (p : String), p ∈ parts →
      REvent.sendMsg p (send p) ∈ sendLoop send parts := by
  intro parts
  induction parts with
  | nil => intro p hp; cases hp
  | cons a l ih =>
    intro p hp
    cases l with
    | nil =>
      rcases List.mem_cons.1 hp with rfl | h2
      · simp [sendLoop]
      · cases h2
    | cons b l2 =>
      rcases List.mem_cons.1 hp with rfl | h2
      · simp [sendLoop]
      · simp only [sendLoop, List.mem_cons]
        exact Or.inr (Or.inr (ih p h2))

theorem sendLoop_shape (send : String → Bool) :
    ∀ (parts : List String) (e : REvent), e ∈ sendLoop send parts →
      (∃ p b, e = REvent.sendMsg p b) ∨ e = REvent.pauseShort := by
  intro parts
  induction parts with
  | nil => intro e he; cases he
  | cons a l ih =>
    intro e he
    cases l with
    | nil =>
      rcases List.mem_cons.1 he with rfl | h2
      · exact Or.inl ⟨a, send a, rfl⟩
      · cases h2
    | cons b l2 =>
      rcases List.mem_cons.1 he with rfl | h2
      · exact Or.inl ⟨a, send a, rfl⟩
      · rcases List.mem_cons.1 h2 with rfl | h3
        · exact Or.inr rfl
        · exact ih e h3

theorem sendLoop_count_pause (send : String → Bool) :
    ∀ parts : List String,
      List.count REvent.pauseShort (sendLoop send parts) = parts.length - 1 := by
  intro parts
  induction parts with
  | nil => simp [sendLoop]
  | cons a l ih =>
    cases l with
    | nil => simp [sendLoop, List.count_cons]
    | cons b l2 =>
      simp only [sendLoop, List.count_cons, ih]
      simp [List.length_cons]

theorem sendLoop_stripOk (send sendB : String → Bool) :
    ∀ parts : List String,
      (sendLoop send parts).map stripOk = (sendLoop sendB parts).map stripOk := by
  intro parts
  induction parts with
  | nil => rfl
  | cons a l ih =>
    cases l with
    | nil => simp [sendLoop, stripOk]
    | cons b l2 => simp [sendLoop, stripOk, ih]

theorem handler_auto_trace (r : String) (send : String → Bool) (hr : r ≠ "")
    (p : String) (rest : List String) (hp : replyParts r = p :: rest) :
    handleReplyGeneration true (some r) true send =
      REvent.generatingLog :: REvent.genCall :: REvent.rateIncrement ::
        REvent.sendingLog p ::
          (sendLoop send (p :: rest) ++ [REvent.pauseLong, REvent.clearLog]) := by
  simp [handleReplyGeneration, hr, hp]

theorem handler_no_suggestion_of_auto (allowed : Bool) (reply : Option String)
    (send : String → Bool) (txt : String) :
    REvent.suggestion txt ∉ handleReplyGeneration allowed reply true send := by
  cases allowed with
  | false => simp [handleReplyGeneration]
  | true =>
    cases reply with
    | none => simp [handleReplyGeneration]
    | some r =>
      by_cases hr : r = ""
      · simp [handleReplyGeneration, hr]
      · cases hp : replyParts r with
        | nil => simp [handleReplyGeneration, hr, hp]
        | cons p rest =>
          rw [handler_auto_trace r send hr p rest hp]
          simp only [List.mem_cons, List.mem_append]
          intro hcase
          rcases hcase with h1 | h1 | h1 | h1 | (h1 | h1)
          · cases h1
          · cases h1
          · cases h1
          · cases h1
          · rcases sendLoop_shape send _ _ h1 with ⟨p2, b2, he⟩ | he
            · cases he
            · cases he
          · rcases h1 with he | he | he
            · cases he
            · cases he
            · cases he

theorem handler_sends_all (r : String) (send : String → Bool) (hr : r ≠ "")
    (p : String) (hp : p ∈ replyParts r) :
    REvent.sendMsg p (send p) ∈ handleReplyGeneration true (some r) true send := by
  cases hparts : replyParts r with
  | nil => rw [hparts] at hp; cases hp
  | cons q rest =>
    rw [handler_auto_trace r send hr q rest hparts]
    simp only [List.mem_cons]
    refine Or.inr (Or.inr (Or.inr (Or.inr ?_)))
    refine List.mem_append.2 (Or.inl ?_)
    rw [← hparts]
    exact sendLoop_mem send (replyParts r) p hp

/-! ## Claim theorems -/

/-- C5: the dedup step returns exactly the fetched records with a present
`message_id` not already in `SentMessageTracker[chat_id]` (for a fetch whose
present ids are distinct, as the step processes records in order), the
updated set is the old set plus exactly the present ids, records lacking a
`message_id` are dropped, and rerunning the step on the identical fetched
list returns an empty new-messages list. -/
theorem dedup_step_spec (h : List Msg) (t : Finset String)
    (hnd : (presentIdsList h).Nodup) :
    (dedupNewMessages h t).1 =
      h.filter (fun m =>
        match m.message_id with
        | some mid => decide (mid ∉ t)
        | none => false)
    ∧ (∀ mid, mid ∈ (dedupNewMessages h t).2 ↔ mid ∈ t ∨ mid ∈ presentIdsList h)
    ∧ (dedupNewMessages h ((dedupNewMessages h t).2)).1 = [] := by
  refine ⟨dedup_fst_filter h t hnd, fun mid => mem_dedup_snd h t mid, ?_⟩
  exact dedup_fst_eq_nil h _ fun mid hmid => (mem_dedup_snd h t mid).2 (Or.inr hmid)

/-- Witness for C5 at a concrete two-record fetch (one id, one id-less). -/
theorem dedup_step_spec_witness :
    (presentIdsList [Msg.mk (some "a") "hi" false, Msg.mk none "pic" false]).Nodup
    ∧ (dedupNewMessages [Msg.mk (some "a") "hi" false, Msg.mk none "pic" false] ∅).1
        = [Msg.mk (some "a") "hi" false]
    ∧ (dedupNewMessages [Msg.mk (some "a") "hi" false, Msg.mk none "pic" false]
        ((dedupNewMessages
          [Msg.mk (some "a") "hi" false, Msg.mk none "pic" false] ∅).2)).1 = [] := by
  have hnd : (presentIdsList
      [Msg.mk (some "a") "hi" false, Msg.mk none "pic" false]).Nodup := by decide
  have hs := dedup_step_spec
    [Msg.mk (some "a") "hi" false, Msg.mk none "pic" false] ∅ hnd
  exact ⟨hnd, by rw [hs.1]; decide, hs.2.2⟩

/-- C6: the read-path pre-seeding adds every present `message_id` of the
returned history to `SentMessageTracker[chat_id]`, so a live-update cycle
immediately after, fetching the same messages, reports zero new messages. -/
theorem preseed_zero_new_messages (history : List Msg) (tracker : Finset String)
    (hv : Bool) :
    (∀ mid, mid ∈ presentIdsList history → mid ∈ preseedSentIds tracker history)
    ∧ (listenAfterFetch hv history (preseedSentIds tracker history)).2.1 = [] := by
  constructor
  · intro mid hmid
    exact (mem_preseed history tracker mid).2 (Or.inr hmid)
  · by_cases hh : history = []
    · subst hh; simp [listenAfterFetch]
    · simp only [listenAfterFetch, if_neg hh]
      exact dedup_fst_eq_nil history _ fun mid hmid =>
        (mem_preseed history tracker mid).2 (Or.inr hmid)

/-- Witness for C6 at a concrete one-message history. -/
theorem preseed_zero_new_messages_witness :
    ("a" ∈ preseedSentIds ∅ [Msg.mk (some "a") "hi" false])
    ∧ (listenAfterFetch true [Msg.mk (some "a") "hi" false]
        (preseedSentIds ∅ [Msg.mk (some "a") "hi" false])).2.1 = [] :=
  ⟨(preseed_zero_new_messages [Msg.mk (some "a") "hi" false] ∅ true).1 "a" (by decide),
   (preseed_zero_new_messages [Msg.mk (some "a") "hi" false] ∅ true).2⟩

/-- C7: a chat is reported changed iff it appears in both snapshots with a
differing preview and the new preview is not case-insensitively the typing
marker; snapshots differing only in one chat's preview set to the typing
marker yield no changed chats. -/
theorem diff_engine_spec (oldSnap newSnap : List (String × String))
    (hnd : (oldSnap.map Prod.fst).Nodup) :
    (∀ cid, cid ∈ changedChats oldSnap newSnap ↔
      ∃ prev, (cid, prev) ∈ newSnap
        ∧ (∃ oldPrev, lookupPrev oldSnap cid = some oldPrev ∧ oldPrev ≠ prev)
        ∧ pyLower prev ≠ typingMarker)
    ∧ (∀ c m, pyLower m = typingMarker →
        changedChats oldSnap (setPreview oldSnap c m) = []) := by
  constructor
  · intro cid
    constructor
    · intro hmem
      rcases List.mem_map.1 hmem with ⟨p, hp, rfl⟩
      rcases List.mem_filter.1 hp with ⟨hpmem, hcond⟩
      cases hl : lookupPrev oldSnap p.1 with
      | none => rw [hl] at hcond; simp at hcond
      | some op =>
        rw [hl] at hcond
        simp only [Bool.and_eq_true, decide_eq_true_eq] at hcond
        exact ⟨p.2, by simpa using hpmem, ⟨op, rfl, hcond.1⟩, hcond.2⟩
    · rintro ⟨prev, hmem, ⟨op, hl, hne⟩, hmark⟩
      apply List.mem_map.2
      refine ⟨(cid, prev), List.mem_filter.2 ⟨hmem, ?_⟩, rfl⟩
      simp [hl, hne, hmark]
  · intro c m hmark
    have hnone : ∀ p ∈ setPreview oldSnap c m,
        ¬((fun q : String × String =>
            match lookupPrev oldSnap q.1 with
            | some oldPrev => decide (oldPrev ≠ q.2) && decide (pyLower q.2 ≠ typingMarker)
            | none => false) p = true) := by
      intro p hp
      rcases List.mem_map.1 hp with ⟨kv, hkv, rfl⟩
      by_cases hc : kv.1 = c
      · rw [if_pos hc]
        cases hl : lookupPrev oldSnap kv.1 <;> simp [hl, hmark]
      · rw [if_neg hc]
        have hl := lookupPrev_eq_of_mem oldSnap hnd kv hkv
        simp [hl]
    simp only [changedChats]
    rw [List.filter_eq_nil_iff.2 hnone]
    rfl

/-- Witness for C7 at concrete snapshots. -/
theorem diff_engine_spec_witness :
    ("alice" ∈ changedChats [("alice", "hi")] [("alice", "hi there")])
    ∧ changedChats [("alice", "hi")]
        (setPreview [("alice", "hi")] "alice" "Typing...") = [] := by
  have hnd : (([("alice", "hi")] : List (String × String)).map Prod.fst).Nodup := by
    decide
  have hs := diff_engine_spec [("alice", "hi")] [("alice", "hi there")] hnd
  refine ⟨(hs.1 "alice").2 ⟨"hi there", by decide, ⟨"hi", by decide, by decide⟩,
    by decide⟩, ?_⟩
  exact hs.2 "alice" "Typing..." (by decide)

/-- C4: with no active cooldown and the counter at `max_requests` inside the
current window, `check_rate_limit` blocks with reset time
`now + cooldown_duration(tier)`, stores that cooldown, and every subsequent
call before `cooldown_until` stays blocked with the same reset time and an
unchanged state (the in-cooldown check runs before the window and at-limit
checks, matching the source's evaluation order). -/
theorem rate_limit_cooldown_entry (tier : String) (s : RLState) (now : Nat)
    (hcd : s.cooldown_until = none)
    (hcount : s.request_count = (get_limits_for_tier tier).max_requests)
    (hwin : now < s.window_start + hoursToSecs (get_limits_for_tier tier).window_hours) :
    check_rate_limit tier (some s) now
      = (false, some (now + hoursToSecs (get_limits_for_tier tier).cooldown_hours),
          ⟨s.request_count, s.window_start,
            some (now + hoursToSecs (get_limits_for_tier tier).cooldown_hours)⟩)
    ∧ (∀ now2, now2 < now + hoursToSecs (get_limits_for_tier tier).cooldown_hours →
        check_rate_limit tier
            (some ⟨s.request_count, s.window_start,
              some (now + hoursToSecs (get_limits_for_tier tier).cooldown_hours)⟩) now2
          = (false,
              some (now + hoursToSecs (get_limits_for_tier tier).cooldown_hours),
              ⟨s.request_count, s.window_start,
                some (now + hoursToSecs (get_limits_for_tier tier).cooldown_hours)⟩)) := by
  constructor
  · have h1 : ¬(s.window_start + hoursToSecs (get_limits_for_tier tier).window_hours ≤ now) := by
      omega
    have h2 : (get_limits_for_tier tier).max_requests ≤ s.request_count := by omega
    simp [check_rate_limit, hcd, h1, h2]
  · intro now2 hlt
    simp [check_rate_limit, hlt]

/-- Witness for C4: the free tier at its 26-request limit, window started at
time 0, checked at time 100; the two-hour cooldown ends at 7300. -/
theorem rate_limit_cooldown_entry_witness :
    check_rate_limit "free" (some ⟨26, 0, none⟩) 100 = (false, some 7300, ⟨26, 0, some 7300⟩)
    ∧ check_rate_limit "free" (some ⟨26, 0, some 7300⟩) 3600
        = (false, some 7300, ⟨26, 0, some 7300⟩) := by
  have hs := rate_limit_cooldown_entry "free" ⟨26, 0, none⟩ 100 rfl (by decide) (by decide)
  exact ⟨hs.1, hs.2 3600 (by decide)⟩

/-- C8: in every reply-generation cycle, the rate counter increment happens
iff the generation call returned a non-empty reply (in particular never on a
blocked check, a failed call, or an empty reply), and never before the
generation call in the event order. -/
theorem rate_increment_iff_success (allowed : Bool) (reply : Option String)
    (autoSend : Bool) (send : String → Bool) :
    REvent.rateIncrement ∉
        (handleReplyGeneration allowed reply autoSend send).takeWhile
          (fun e => e != REvent.genCall)
    ∧ (REvent.rateIncrement ∈ handleReplyGeneration allowed reply autoSend send
        ↔ allowed = true ∧ ∃ r, reply = some r ∧ r ≠ "") := by
  cases allowed with
  | false =>
    constructor
    · rw [show handleReplyGeneration false reply autoSend send
          = [REvent.rateLimitedChat, REvent.rateLimitedSidebar] from rfl]
      decide
    · simp [handleReplyGeneration]
  | true =>
    cases reply with
    | none =>
      constructor
      · rw [show handleReplyGeneration true none autoSend send
            = [REvent.generatingLog, REvent.genCall, REvent.clearLog] from rfl]
        decide
      · simp [handleReplyGeneration]
    | some r =>
      by_cases hr : r = ""
      · subst hr
        constructor
        · rw [show handleReplyGeneration true (some "") autoSend send
              = [REvent.generatingLog, REvent.genCall, REvent.clearLog] from rfl]
          decide
        · simp [handleReplyGeneration]
      · have hshape : handleReplyGeneration true (some r) autoSend send
            = REvent.generatingLog :: REvent.genCall :: REvent.rateIncrement ::
                (if autoSend then
                  (match replyParts r with
                   | [] => [REvent.indexError, REvent.clearLog]
                   | p :: rest =>
                     REvent.sendingLog p ::
                       (sendLoop send (p :: rest) ++ [REvent.pauseLong, REvent.clearLog]))
                 else [REvent.clearLog, REvent.suggestion r]) := by
          simp [handleReplyGeneration, hr]
        rw [hshape]
        constructor
        · have e1 : (REvent.generatingLog != REvent.genCall) = true := rfl
          have e2 : (REvent.genCall != REvent.genCall) = false := rfl
          simp [List.takeWhile_cons, e1, e2]
        · constructor
          · intro _
            exact ⟨rfl, r, rfl, hr⟩
          · intro _
            simp [List.mem_cons]

/-- C2 (counterexample): for the generated reply "ok\ncool" with the send of
the first candidate failing, the trace shows the second candidate is still
attempted and the run ends with the normal clear broadcast — no failure
index is surfaced, refuting "if the send at index `i` fails, no candidate at
index greater than `i` is attempted". -/
theorem send_failure_not_surfaced_cx :
    handleReplyGeneration true (some "ok\ncool") true (fun p => p != "ok")
      = [REvent.generatingLog, REvent.genCall, REvent.rateIncrement,
         REvent.sendingLog "ok", REvent.sendMsg "ok" false, REvent.pauseShort,
         REvent.sendMsg "cool" true, REvent.pauseLong, REvent.clearLog]
    ∧ REvent.sendMsg "cool" true ∈
        handleReplyGeneration true (some "ok\ncool") true (fun p => p != "ok") := by
  constructor <;> decide

/-- C2 (amended): candidates are sent sequentially with a 0.8 s pause
between consecutive sends, but every candidate is attempted regardless of
earlier send failures and no failure is surfaced: the boolean result of
`send_message` is ignored, so the trace shape is independent of the send
outcomes. -/
theorem auto_send_all_attempted (r : String) (send sendB : String → Bool)
    (hr : r ≠ "") (p0 : String) (rest0 : List String)
    (hp : replyParts r = p0 :: rest0) :
    (∀ p ∈ replyParts r,
      REvent.sendMsg p (send p) ∈ handleReplyGeneration true (some r) true send)
    ∧ List.count REvent.pauseShort (handleReplyGeneration true (some r) true send)
        = (replyParts r).length - 1
    ∧ (handleReplyGeneration true (some r) true send).map stripOk
        = (handleReplyGeneration true (some r) true sendB).map stripOk := by
  refine ⟨fun p hp2 => handler_sends_all r send hr p hp2, ?_, ?_⟩
  · rw [handler_auto_trace r send hr p0 rest0 hp]
    have e1 : (REvent.generatingLog == REvent.pauseShort) = false := rfl
    have e2 : (REvent.genCall == REvent.pauseShort) = false := rfl
    have e3 : (REvent.rateIncrement == REvent.pauseShort) = false := rfl
    have e4 : (REvent.sendingLog p0 == REvent.pauseShort) = false := rfl
    have e5 : (REvent.pauseLong == REvent.pauseShort) = false := rfl
    have e6 : (REvent.clearLog == REvent.pauseShort) = false := rfl
    simp only [List.count_cons, List.count_append, List.count_nil,
      e1, e2, e3, e4, e5, e6, if_false, sendLoop_count_pause send, hp]
    simp
  · rw [handler_auto_trace r send hr p0 rest0 hp,
      handler_auto_trace r sendB hr p0 rest0 hp]
    simp only [List.map_cons, List.map_append, stripOk]
    rw [sendLoop_stripOk send sendB (p0 :: rest0)]

/-- Witness for C2's amended claim on the reply "ok\ncool" with a failing
first send. -/
theorem auto_send_all_attempted_witness :
    REvent.sendMsg "ok" false ∈
      handleReplyGeneration true (some "ok\ncool") true (fun p => p == "cool")
    ∧ List.count REvent.pauseShort
        (handleReplyGeneration true (some "ok\ncool") true (fun p => p == "cool")) = 1 := by
  have hs := auto_send_all_attempted "ok\ncool" (fun p => p == "cool")
    (fun _ => true) (by decide) "ok" ["cool"] (by decide)
  exact ⟨hs.1 "ok" (by decide), hs.2.1.trans (by decide)⟩

/-- C9: a change on an untracked chat with the global auto-reply policy on
enrolls the chat with `enabled = true` and `auto_reply = true`, adds it to
the tracked cache, and the handler for such a chat takes the auto-send
branch: it never broadcasts a suggestion, and sends every candidate of a
subsequent successful reply. -/
theorem global_auto_enroll_spec (db : String → Option ChatSettingsRec)
    (cache : Finset String) (chatId rules : String) (hT : chatId ∉ cache) :
    (enrollIfGlobal true db cache chatId rules).1 chatId = some ⟨true, true, rules⟩
    ∧ chatId ∈ (enrollIfGlobal true db cache chatId rules).2.1
    ∧ (enrollIfGlobal true db cache chatId rules).2.2 = true
    ∧ autoSendOf (enrollIfGlobal true db cache chatId rules).1 chatId = true
    ∧ (∀ r send txt, REvent.suggestion txt ∉
        handleReplyGeneration true (some r)
          (autoSendOf (enrollIfGlobal true db cache chatId rules).1 chatId) send)
    ∧ (∀ r send p, r ≠ "" → p ∈ replyParts r →
        REvent.sendMsg p (send p) ∈
          handleReplyGeneration true (some r)
            (autoSendOf (enrollIfGlobal true db cache chatId rules).1 chatId) send) := by
  have he : enrollIfGlobal true db cache chatId rules
      = ((applyGlobalSettingsToChat db cache chatId rules).1,
         (applyGlobalSettingsToChat db cache chatId rules).2, true) := by
    simp [enrollIfGlobal, hT]
  have hdb : (enrollIfGlobal true db cache chatId rules).1 chatId
      = some ⟨true, true, rules⟩ := by
    rw [he]; simp [applyGlobalSettingsToChat]
  have hauto : autoSendOf (enrollIfGlobal true db cache chatId rules).1 chatId = true := by
    simp [autoSendOf, hdb]
  refine ⟨hdb, ?_, ?_, hauto, ?_, ?_⟩
  · rw [he]; simp [applyGlobalSettingsToChat]
  · rw [he]
  · intro r send txt
    rw [hauto]
    exact handler_no_suggestion_of_auto true (some r) send txt
  · intro r send p hr hp
    rw [hauto]
    exact handler_sends_all r send hr p hp

/-- Witness for C9 at a concrete empty database and cache. -/
theorem global_auto_enroll_spec_witness :
    (enrollIfGlobal true (fun _ => none) ∅ "alice" "be nice").1 "alice"
        = some ⟨true, true, "be nice"⟩
    ∧ "alice" ∈ (enrollIfGlobal true (fun _ => none) ∅ "alice" "be nice").2.1
    ∧ autoSendOf (enrollIfGlobal true (fun _ => none) ∅ "alice" "be nice").1 "alice"
        = true
    ∧ REvent.sendMsg "hi" true ∈
        handleReplyGeneration true (some "hi")
          (autoSendOf (enrollIfGlobal true (fun _ => none) ∅ "alice" "be nice").1 "alice")
          (fun _ => true) := by
  have hs := global_auto_enroll_spec (fun _ => none) ∅ "alice" "be nice" (by decide)
  exact ⟨hs.1, hs.2.1, hs.2.2.2.1,
    hs.2.2.2.2.2 "hi" (fun _ => true) "hi" (by decide) (by decide)⟩

/-- C10: the non-empty whitespace-only reply " \n  " passes the truthiness
check (so the rate counter is incremented), splits into an empty candidate
list, and the auto-send path aborts through the `IndexError` on
`reply_parts[0]` caught by the generic handler — zero messages sent. -/
theorem whitespace_reply_auto_send_aborts :
    (" \n  " : String) ≠ ""
    ∧ replyParts " \n  " = []
    ∧ handleReplyGeneration true (some " \n  ") true (fun _ => true)
        = [REvent.generatingLog, REvent.genCall, REvent.rateIncrement,
           REvent.indexError, REvent.clearLog] := by
  refine ⟨by decide, by decide, by decide⟩

/-- C1 (counterexample): a fetch whose captured version 1 differs from the
live counter 2 skips db2 persistence, yet its message is still returned, its
id "m1" is added to `sent_message_ids` and the message is delivered to the
viewer — refuting "nothing is persisted, nothing is delivered, and no
message_id from it is added". -/
theorem stale_fetch_still_committed_cx :
    (getChatHistoryComplete 1 2 (some "alice") [Msg.mk (some "m1") "hey" false]).db2Persisted
        = false
    ∧ (getChatHistoryComplete 1 2 (some "alice") [Msg.mk (some "m1") "hey" false]).returned
        = [Msg.mk (some "m1") "hey" false]
    ∧ "m1" ∈ (listenAfterFetch true
        (getChatHistoryComplete 1 2 (some "alice")
          [Msg.mk (some "m1") "hey" false]).returned ∅).1
    ∧ (listenAfterFetch true
        (getChatHistoryComplete 1 2 (some "alice")
          [Msg.mk (some "m1") "hey" false]).returned ∅).2.2
        = [Msg.mk (some "m1") "hey" false] := by
  refine ⟨by decide, by decide, by decide, by decide⟩

/-- C1 (amended): a stale fetch (captured version ≠ live counter at
completion) skips only the db2 persistence; the scraped messages are still
returned unchanged, so the listen loop processes them as usual — delivering
them and adding their present ids to `sent_message_ids[chat_id]`. -/
theorem stale_fetch_skips_only_db2 (my live : Nat) (chatId : Option String)
    (msgs : List Msg) (hv : Bool) (tracker : Finset String) (hne : my ≠ live) :
    (getChatHistoryComplete my live chatId msgs).db2Persisted = false
    ∧ (getChatHistoryComplete my live chatId msgs).returned = msgs
    ∧ listenAfterFetch hv (getChatHistoryComplete my live chatId msgs).returned tracker
        = listenAfterFetch hv msgs tracker
    ∧ (∀ mid, mid ∈ presentIdsList msgs → msgs ≠ [] →
        mid ∈ (listenAfterFetch hv msgs tracker).1) := by
  have hret : getChatHistoryComplete my live chatId msgs = ⟨msgs, false⟩ := by
    by_cases hcond : msgs ≠ [] ∧ chatId.isSome
    · simp [getChatHistoryComplete, hcond, hne]
    · simp [getChatHistoryComplete, hcond]
  refine ⟨by rw [hret], by rw [hret], by rw [hret], ?_⟩
  intro mid hmid hnil
  simp only [listenAfterFetch, if_neg hnil]
  exact (mem_dedup_snd msgs tracker mid).2 (Or.inr hmid)

/-- Witness for C1's amended claim at the counterexample's concrete input. -/
theorem stale_fetch_skips_only_db2_witness :
    (getChatHistoryComplete 3 4 (some "bob") [Msg.mk (some "m2") "yo" false]).db2Persisted
        = false
    ∧ (getChatHistoryComplete 3 4 (some "bob") [Msg.mk (some "m2") "yo" false]).returned
        = [Msg.mk (some "m2") "yo" false]
    ∧ "m2" ∈ (listenAfterFetch false [Msg.mk (some "m2") "yo" false] ∅).1 := by
  have hs := stale_fetch_skips_only_db2 3 4 (some "bob")
    [Msg.mk (some "m2") "yo" false] false ∅ (by decide)
  exact ⟨hs.1, hs.2.1, hs.2.2.2 "m2" (by decide) (by decide)⟩

/-- C3: in a room `[0, 1, 2]` where sending to subscriber 0 fails, the
Python iterate-while-removing loop delivers only to subscriber 2: subscriber
1 is skipped even though it stays in the room, contradicting "delivery still
continues to every remaining subscriber". -/
theorem broadcast_failure_skips_next :
    pyBroadcast (fun s => s == 0) [0, 1, 2] = ([2], [1, 2])
    ∧ 1 ∉ (pyBroadcast (fun s => s == 0) [0, 1, 2]).1
    ∧ 1 ∈ (pyBroadcast (fun s => s == 0) [0, 1, 2]).2 := by
  refine ⟨by decide, by decide, by decide⟩

end Raiden
